import Mathlib

/-!
# Verification of the claude-hub webhook dispatcher

Shallow embedding of the webhook-driven command dispatcher: the repository
parser (`src/utils/repositoryParser.ts`), the Slack webhook provider
(`src/providers/slack/SlackWebhookProvider.ts`), the Slack slash-command
handlers (`src/providers/slack/handlers/*.ts`), the GitHub service and Slack
notification service (`src/services/githubService.ts`), and the sandbox
entrypoint's permission table and response markers
(`scripts/runtime/claudecode-entrypoint-*.sh`).

Strings are modelled as `List Char`.  JavaScript regular-expression matching
is embedded by direct character-class scanners whose semantics coincide with
the (backtracking) regex engine on the specific anchored patterns used by the
source; the surrounding comments justify each equivalence.  Character classes
are modelled over their ASCII portion (plus the line-terminator code points
that JavaScript's `.` excludes), which covers every input the theorems and
examples exercise.
-/

namespace ClaudeHub

/-- JS regex word class `\w` = `[A-Za-z0-9_]`. -/
def isWordChar (c : Char) : Bool := c.isAlphanum || c = '_'

/-- Character class `[\w.-]` used by the shared repository regex in
`parseRepositoryFromText`. -/
def isRepoChar (c : Char) : Bool := isWordChar c || c = '.' || c = '-'

/-- Character class `[\w-]` used by `PlanHandler.handle`'s inline regex. -/
def isPlanChar (c : Char) : Bool := isWordChar c || c = '-'

/-- JS whitespace class `\s` (ASCII portion): space, tab, line feed, vertical
tab, form feed, carriage return. -/
def isJsSpace (c : Char) : Bool :=
  c = ' ' || c = '\t' || c = '\n' || c = '\x0b' || c = '\x0c' || c = '\r'

/-- Characters matched by JS `.` (without the `s` flag): everything except the
line terminators LF, CR, U+2028, U+2029. -/
def isDotChar (c : Char) : Bool :=
  !(c = '\n' || c = '\r' || c.val = 0x2028 || c.val = 0x2029)

/-- JS `String.prototype.trim` (ASCII whitespace portion). -/
def jsTrim (s : List Char) : List Char :=
  ((s.dropWhile isJsSpace).reverse.dropWhile isJsSpace).reverse

/-- JS string truthiness for an optional string-valued field: `undefined` and
the empty string are falsy. -/
def jsFalsyStr (o : Option (List Char)) : Bool :=
  match o with
  | none => true
  | some s => s.isEmpty

/- ## repositoryParser.ts -/

/-- `ParsedRepository` from `src/utils/repositoryParser.ts`. -/
structure ParsedRepository where
  owner : List Char
  repo : List Char
  remainingText : List Char
  isExplicit : Bool
  deriving Repr, DecidableEq

/-- The process environment consulted by the parser and the handlers:
`DEFAULT_GITHUB_OWNER` and `DEFAULT_GITHUB_REPO` (absent = `undefined`). -/
structure ParserEnv where
  DEFAULT_GITHUB_OWNER : Option (List Char)
  DEFAULT_GITHUB_REPO : Option (List Char)
  deriving Repr, DecidableEq

/-- Matching of the anchored regex `^([\w.-]+)\/([\w.-]+)(?:\s+(.*))?$` of
`parseRepositoryFromText` against a whole string, returning the three capture
groups (group 3 `none` when the optional part is skipped).

Equivalence with the backtracking engine: the class `[\w.-]` excludes `/` and
whitespace, so the greedy group 1 is exactly the maximal leading run of that
class and must be followed by `/`; group 2 is the maximal run after the slash.
After group 2 the pattern requires end of input, or `\s+` followed by `(.*)$`;
since a line terminator can never enter `(.*)`, the optional part matches
exactly when the maximal whitespace run after group 2 is non-empty and the
remainder after it is terminator-free (shrinking `\s+` only grows the
remainder, so backtracking never succeeds when the maximal split fails). -/
def sharedRepoMatch (s : List Char) :
    Option (List Char × List Char × Option (List Char)) :=
  if (s.takeWhile isRepoChar).isEmpty then none
  else
    match s.dropWhile isRepoChar with
    | [] => none
    | c :: s2 =>
      if c = '/' then
        if (s2.takeWhile isRepoChar).isEmpty then none
        else if (s2.dropWhile isRepoChar).isEmpty then
          some (s.takeWhile isRepoChar, s2.takeWhile isRepoChar, none)
        else if ((s2.dropWhile isRepoChar).takeWhile isJsSpace).isEmpty then
          none
        else if ((s2.dropWhile isRepoChar).dropWhile isJsSpace).all
            isDotChar then
          some (s.takeWhile isRepoChar, s2.takeWhile isRepoChar,
            some ((s2.dropWhile isRepoChar).dropWhile isJsSpace))
        else none
      else none

/-- The resolved default repo value
`defaultRepo ?? process.env.DEFAULT_GITHUB_REPO ?? 'demo-repository'`
(`??` is nullish coalescence: an empty string passes through). -/
def defaultRepoValue (env : ParserEnv) (defaultRepo : Option (List Char)) :
    List Char :=
  (defaultRepo.or env.DEFAULT_GITHUB_REPO).getD ("demo-repository".toList)

/-- The resolved default owner value
`defaultOwner ?? process.env.DEFAULT_GITHUB_OWNER ?? 'claude-did-this'`. -/
def defaultOwnerValue (env : ParserEnv) (defaultOwner : Option (List Char)) :
    List Char :=
  (defaultOwner.or env.DEFAULT_GITHUB_OWNER).getD ("claude-did-this".toList)

/-- `parseRepositoryFromText` from `src/utils/repositoryParser.ts`.  The text
is trimmed; an explicit `owner/repo` match wins, otherwise the configured
defaults are used, a default repo value containing `/` being split on `/`
with head as owner and the remainder re-joined as repo. -/
def parseRepositoryFromText (env : ParserEnv)
    (defaultOwner defaultRepo : Option (List Char)) (text : List Char) :
    ParsedRepository :=
  match sharedRepoMatch (jsTrim text) with
  | some (owner, repo, g3) =>
    { owner := owner, repo := repo,
      remainingText := jsTrim (g3.getD []), isExplicit := true }
  | none =>
    if (defaultRepoValue env defaultRepo).contains '/' then
      { owner := ((defaultRepoValue env defaultRepo).splitOn '/').headD []
        repo := List.intercalate ['/']
          (((defaultRepoValue env defaultRepo).splitOn '/').tail)
        remainingText := jsTrim text
        isExplicit := false }
    else
      { owner := defaultOwnerValue env defaultOwner
        repo := defaultRepoValue env defaultRepo
        remainingText := jsTrim text
        isExplicit := false }

/-- Matching of `PlanHandler.handle`'s inline regex
`^([\w-]+)\/([\w-]+)\s+(.*)` against the RAW (untrimmed) text.  Unlike the
shared rule, the character class has no dot, the whitespace-separated
remainder is mandatory, and the pattern is not end-anchored: group 3 is the
post-whitespace text up to the first line terminator. -/
def planRegexMatch (s : List Char) :
    Option (List Char × List Char × List Char) :=
  if (s.takeWhile isPlanChar).isEmpty then none
  else
    match s.dropWhile isPlanChar with
    | [] => none
    | c :: s2 =>
      if c = '/' then
        if (s2.takeWhile isPlanChar).isEmpty then none
        else if ((s2.dropWhile isPlanChar).takeWhile isJsSpace).isEmpty then
          none
        else
          some (s.takeWhile isPlanChar, s2.takeWhile isPlanChar,
            ((s2.dropWhile isPlanChar).dropWhile isJsSpace).takeWhile
              isDotChar)
      else none

/-- Repository selection of `PlanHandler.handle`: its own inline regex on the
raw text; on no match, the env defaults with the idea text unchanged. -/
def planRepoChoice (env : ParserEnv) (text : List Char) :
    List Char × List Char × List Char :=
  match planRegexMatch text with
  | some (o, r, idea) => (o, r, idea)
  | none =>
    (env.DEFAULT_GITHUB_OWNER.getD ("claude-did-this".toList),
      env.DEFAULT_GITHUB_REPO.getD ("demo-repository".toList), text)

/-- Repository selection of `BugHandler.handle`: no repository parsing at
all — always the env defaults, with the full text as the report. -/
def bugRepoChoice (env : ParserEnv) (text : List Char) :
    List Char × List Char × List Char :=
  (env.DEFAULT_GITHUB_OWNER.getD ("claude-did-this".toList),
    env.DEFAULT_GITHUB_REPO.getD ("demo-repository".toList), text)

/-- Repository selection of `TestHandler.handle`: `text?.trim() ?? ''` fed to
the shared `parseRepositoryFromText` with no explicit defaults. -/
def testRepoChoice (env : ParserEnv) (text : Option (List Char)) :
    ParsedRepository :=
  parseRepositoryFromText env none none (jsTrim (text.getD []))

/-- Specification-side description of the regex
`^([\w.-]+)\/([\w.-]+)(?:\s+(.*))?$` matching the whole string `s` with
capture groups `o`, `r` and the optional `g3`, under the greedy JS engine
semantics: the optional remainder is preceded by the maximal non-empty
whitespace run (so it does not start with whitespace) and contains no line
terminator. -/
def MatchesRepoPattern (s o r : List Char) (g3 : Option (List Char)) : Prop :=
  o ≠ [] ∧ o.all isRepoChar = true ∧ r ≠ [] ∧ r.all isRepoChar = true ∧
    ((g3 = none ∧ s = o ++ '/' :: r) ∨
      (∃ w rest, g3 = some rest ∧ w ≠ [] ∧ w.all isJsSpace = true ∧
        rest.all isDotChar = true ∧
        (∀ c t, rest = c :: t → isJsSpace c = false) ∧
        s = o ++ '/' :: (r ++ w ++ rest)))

/-- Matching of `^[a-zA-Z0-9]([a-zA-Z0-9-]*[a-zA-Z0-9])?$` against a whole
string: one alphanumeric character, optionally followed by a run of
alphanumerics/hyphens whose final character is alphanumeric. -/
def ownerRegexTest (s : List Char) : Bool :=
  match s with
  | [] => false
  | c :: rest =>
    c.isAlphanum &&
      (rest.isEmpty ||
        (rest.dropLast.all (fun x => x.isAlphanum || x = '-') &&
          (rest.getLastD 'a').isAlphanum))

/-- Matching of `^[a-zA-Z0-9._-]+$` against a whole string. -/
def repoRegexTest (s : List Char) : Bool :=
  !s.isEmpty && s.all (fun c => c.isAlphanum || c = '.' || c = '_' || c = '-')

/-- `isValidRepository` from `src/utils/repositoryParser.ts`. -/
def isValidRepository (owner repo : List Char) : Bool :=
  ownerRegexTest owner && repoRegexTest repo

/- ## Sandbox entrypoint permission table
(`scripts/runtime/claudecode-entrypoint-*.sh`, `ALLOWED_TOOLS`) -/

/-- Allow-list for `OPERATION_TYPE = "auto-tagging"`. -/
def autoTaggingTools : List Char :=
  "Read,GitHub,Bash(gh issue edit:*),Bash(gh issue view:*),Bash(gh label list:*)".toList

/-- Allow-list for `OPERATION_TYPE` `"pr-review"` / `"manual-pr-review"`. -/
def prReviewTools : List Char :=
  "Read,GitHub,Bash(gh:*),Bash(git log:*),Bash(git show:*),Bash(git diff:*)".toList

/-- Allow-list selected by the entrypoint's `else` branch, for every other
operation type. -/
def defaultTools : List Char :=
  "Bash,Create,Edit,Read,Write,GitHub,Bash(gh pr:*),Bash(gh issue:*)".toList

/-- The `if / elif / else` chain computing `ALLOWED_TOOLS` in the sandbox
entrypoint script. -/
def ALLOWED_TOOLS (operationType : List Char) : List Char :=
  if operationType = "auto-tagging".toList then autoTaggingTools
  else if operationType = "pr-review".toList ∨
      operationType = "manual-pr-review".toList then prReviewTools
  else defaultTools

/-- The individual tool names of a comma-separated allow-list, as consumed by
`claude --allowedTools`. -/
def toolNames (tools : List Char) : List (List Char) := tools.splitOn ','

/- ## SlackWebhookProvider.ts: payload parsing -/

/-- The `data` member of a Slack slash-command payload
(`SlackWebhookPayload['data']`); absent form fields are `none`. -/
structure SlackData where
  token : Option (List Char) := none
  team_id : Option (List Char) := none
  team_domain : Option (List Char) := none
  channel_id : Option (List Char) := none
  channel_name : Option (List Char) := none
  user_id : Option (List Char) := none
  user_name : Option (List Char) := none
  command : Option (List Char) := none
  text : Option (List Char) := none
  response_url : Option (List Char) := none
  trigger_id : Option (List Char) := none
  api_app_id : Option (List Char) := none
  deriving Repr, DecidableEq

/-- `SlackWebhookPayload` as constructed by
`SlackWebhookProvider.parsePayload`. -/
structure SlackPayload where
  id : List Char
  timestamp : List Char
  provider : List Char
  source : List Char
  event : List Char
  data : SlackData
  deriving Repr, DecidableEq

/-- `SlackWebhookProvider.parsePayload`: `nowMs` stands for `Date.now()` (used
when `trigger_id` is nullish) and `isoNow` for `new Date().toISOString()`. -/
def parsePayload (nowMs : Nat) (isoNow : List Char) (body : SlackData) :
    SlackPayload :=
  { id := "slack-".toList ++ body.trigger_id.getD (Nat.repr nowMs).toList
    timestamp := isoNow
    provider := "slack".toList
    source := "slack".toList
    event :=
      if jsFalsyStr body.command then "unknown".toList
      else "slash_command:".toList ++ body.command.getD []
    data := body }

/-- `SlackWebhookProvider.getEventType`. -/
def getEventType (p : SlackPayload) : List Char :=
  if jsFalsyStr p.data.command then "unknown".toList
  else "slash_command:".toList ++ p.data.command.getD []

/- ## SlackWebhookProvider.ts: signature verification -/

/-- JS `parseInt(s, 10)`: skip leading whitespace, optional sign, then the
longest prefix of decimal digits; `none` models `NaN`. -/
def jsParseInt (s : List Char) : Option Int :=
  let t := s.dropWhile isJsSpace
  let signAndRest : Int × List Char :=
    match t with
    | '-' :: r => (-1, r)
    | '+' :: r => (1, r)
    | _ => (1, t)
  let digits := signAndRest.2.takeWhile Char.isDigit
  if digits.isEmpty then none
  else
    some (signAndRest.1 *
      (digits.foldl (fun n c => n * 10 + (c.toNat - 48)) (0 : Nat) : Int))

/-- Byte length of a string's UTF-8 encoding (`Buffer.from(s, 'utf8').length`). -/
def utf8Len (s : List Char) : Nat := (s.map Char.utf8Size).sum

/-- Node's `crypto.timingSafeEqual` on UTF-8 buffers of the two strings: it
THROWS a `RangeError` when the byte lengths differ, and otherwise reports
byte-wise equality (which, UTF-8 being injective, is string equality). -/
def timingSafeEqual (a b : List Char) : Except Unit Bool :=
  if utf8Len a = utf8Len b then .ok (a == b) else .error ()

/-- The headers and raw body of an inbound Slack webhook request, as read by
`verifySignatureSync` (`none` = header absent). -/
structure SlackRequest where
  x_slack_signature : Option (List Char)
  x_slack_request_timestamp : Option (List Char)
  rawBody : Option (List Char)
  deriving Repr, DecidableEq

/-- The replay-window test of `verifySignatureSync`:
`Math.abs(currentTime - parseInt(timestamp, 10)) > 60 * 5`.  A `NaN`
`requestTime` makes the comparison false, so the request is NOT rejected. -/
def slackStale (currentTime : Int) (timestamp : List Char) : Bool :=
  match jsParseInt timestamp with
  | none => false
  | some t => decide ((currentTime - t).natAbs > 300)

/-- `SlackWebhookProvider.verifySignatureSync`.  `hmacSha256Hex` stands for
the external `crypto.createHmac('sha256', secret).update(m).digest('hex')`
primitive and `currentTime` for `Math.floor(Date.now() / 1000)`; the
`Except` layer carries the exception channel of `timingSafeEqual`. -/
def verifySignatureSync (hmacSha256Hex : List Char → List Char → List Char)
    (currentTime : Int) (req : SlackRequest) (secret : List Char) :
    Except Unit Bool :=
  if jsFalsyStr req.x_slack_signature ||
      jsFalsyStr req.x_slack_request_timestamp then .ok false
  else
    let signature := req.x_slack_signature.getD []
    let timestamp := req.x_slack_request_timestamp.getD []
    if slackStale currentTime timestamp then .ok false
    else
      let sigBasestring :=
        "v0:".toList ++ timestamp ++ ":".toList ++ req.rawBody.getD []
      let mySignature := "v0=".toList ++ hmacSha256Hex secret sigBasestring
      timingSafeEqual mySignature signature

/-- A stand-in for the external HMAC-SHA256 hex-digest primitive used in
concrete evaluations; like the real digest, its output is 64 one-byte
characters for every input. -/
def digest64 : List Char → List Char → List Char :=
  fun _ _ => List.replicate 64 'a'

/- ## githubService.ts -/

/-- JS `String.prototype.includes`: the pattern occurs contiguously somewhere
in the string. -/
def jsIncludes (s pat : List Char) : Bool :=
  (List.range (s.length + 1)).any (fun i => pat.isPrefixOf (s.drop i))

/-- `getOctokit` from `src/services/githubService.ts`: a client exists exactly
when the stored `GITHUB_TOKEN` is truthy and contains `ghp_` or
`github_pat_`.  The lazily-cached Octokit instance is modelled by `Unit`. -/
def getOctokit (storedToken : Option (List Char)) : Option Unit :=
  if !jsFalsyStr storedToken &&
      (jsIncludes (storedToken.getD []) ("ghp_".toList) ||
        jsIncludes (storedToken.getD []) ("github_pat_".toList)) then
    some ()
  else none

/-- A GitHub entity id: `'test-comment-id'` in test mode, a number from the
real API. -/
inductive GithubId where
  | str : List Char → GithubId
  | num : Int → GithubId
  deriving Repr, DecidableEq

/-- `CreateCommentResponse` as returned by `postComment`. -/
structure CreateCommentResponse where
  id : GithubId
  body : List Char
  created_at : List Char
  deriving Repr, DecidableEq

/-- The `data` of Octokit's `issues.createComment`. -/
structure OctokitCommentData where
  id : Int
  body : Option (List Char)
  created_at : List Char
  deriving Repr, DecidableEq

/-- A created GitHub issue (the fields of Octokit's `issues.create` data that
the handlers read). -/
structure Issue where
  number : Int
  html_url : List Char
  deriving Repr, DecidableEq

/-- `validateGitHubParams` from `src/services/githubService.ts`: owner and
name must match `^[a-zA-Z0-9._-]+$` (the same language as `repoRegexTest`)
and the issue number must be a positive integer; violations throw. -/
def validateGitHubParams (repoOwner repoName : List Char)
    (issueNumber : Int) :
    Except (List Char) (List Char × List Char × Int) :=
  if !repoRegexTest repoOwner || !repoRegexTest repoName then
    .error ("Invalid repository owner or name - contains unsafe characters".toList)
  else if issueNumber ≤ 0 then
    .error ("Invalid issue number - must be a positive integer".toList)
  else .ok (repoOwner, repoName, issueNumber)

/-- `postComment` from `src/services/githubService.ts`.  `nodeEnvTest` models
`process.env.NODE_ENV === 'test'`, `client` the `getOctokit()` result,
`apiCreateComment` the external `client.issues.createComment` call (errors =
rejections), `isoNow` the `new Date().toISOString()` stamp.  The surrounding
`try/catch` re-throws every failure as `Failed to post comment: ...`. -/
def postComment (nodeEnvTest : Bool) (client : Option Unit)
    (apiCreateComment :
      List Char → List Char → Int → List Char →
        Except (List Char) OctokitCommentData)
    (isoNow repoOwner repoName : List Char) (issueNumber : Int)
    (body : List Char) : Except (List Char) CreateCommentResponse :=
  match validateGitHubParams repoOwner repoName issueNumber with
  | .error e => .error ("Failed to post comment: ".toList ++ e)
  | .ok v =>
    if nodeEnvTest || client.isNone then
      .ok { id := .str ("test-comment-id".toList), body := body,
            created_at := isoNow }
    else
      match apiCreateComment v.1 v.2.1 v.2.2 body with
      | .ok d =>
        .ok { id := .num d.id, body := d.body.getD [],
              created_at := d.created_at }
      | .error e => .error ("Failed to post comment: ".toList ++ e)

/-- `createIssue` from `src/services/githubService.ts`.  Unlike `postComment`
it has no `NODE_ENV` test branch: with no client it throws
`GitHub client not configured`; its `catch` re-throws the error unchanged. -/
def createIssue (client : Option Unit)
    (apiCreateIssue :
      List Char → List Char → List Char → List Char → List (List Char) →
        Except (List Char) Issue)
    (owner repo title body : List Char) (labels : List (List Char)) :
    Except (List Char) Issue :=
  match validateGitHubParams owner repo 1 with
  | .error e => .error e
  | .ok v =>
    if client.isNone then .error ("GitHub client not configured".toList)
    else
      match apiCreateIssue v.1 v.2.1 title body labels with
      | .ok d => .ok d
      | .error e => .error e

/- ## Slack slash-command handlers
(`src/providers/slack/handlers/{Plan,Bug,Test}Handler.ts`) -/

/-- A message relayed (or attempted) to a Slack `response_url`. -/
structure SlackMsg where
  url : List Char
  text : List Char
  deriving Repr, DecidableEq

/-- `WebhookHandlerResponse` (the fields the Slack handlers populate). -/
structure HandlerResponse where
  success : Bool
  message : Option (List Char) := none
  error : Option (List Char) := none
  deriving Repr, DecidableEq

/-- The external collaborators of the handlers: `axios.post` to the response
URL, `claudeService.processCommand` (repoFullName, prompt ↦ extracted
response; not in the provided sources, consumed as an oracle), and the
Octokit client/API used by `createIssue`.  Errors model rejections. -/
structure HandlerEnv where
  parserEnv : ParserEnv
  axiosPost : List Char → List Char → Except (List Char) Unit
  processCommand : List Char → List Char → Except (List Char) (List Char)
  octoClient : Option Unit
  apiCreateIssue :
    List Char → List Char → List Char → List Char → List (List Char) →
      Except (List Char) Issue

/-- JS template-literal interpolation of a possibly-`undefined` value. -/
def jsInterp (o : Option (List Char)) : List Char :=
  o.getD ("undefined".toList)

/-- Decimal rendering of an integer (JS number interpolation). -/
def intDec (n : Int) : List Char := (toString n).toList

/-- The handlers' shared private `respondToSlack`: without a `response_url`
it only warns; otherwise it posts, and a delivery failure is caught, logged
and swallowed.  The returned list records the attempted posts. -/
def respondToSlack (env : HandlerEnv) (responseUrl : Option (List Char))
    (messageText : List Char) : List SlackMsg :=
  match responseUrl with
  | none => []
  | some u =>
    match env.axiosPost u messageText with
    | .ok _ => [{ url := u, text := messageText }]
    | .error _ => [{ url := u, text := messageText }]

/-- `❌ Please provide an idea to plan. ...` usage reply of PlanHandler. -/
def planUsageText : List Char :=
  "❌ Please provide an idea to plan. Usage: `/plan [your idea]`".toList

/-- Acknowledgment reply of PlanHandler. -/
def planAckText (text : List Char) : List Char :=
  "🤔 Processing your idea: \"".toList ++ text ++
    "\"\nI'll create a detailed GitHub issue with a design document...".toList

/-- Error reply of PlanHandler's `catch` branch. -/
def planFailText (e : List Char) : List Char :=
  "❌ Failed to create design document: ".toList ++ e

/-- Success reply of PlanHandler. -/
def planSuccessText (number : Int) (url title : List Char) : List Char :=
  "✅ Design document created successfully!\n\n**Issue #".toList ++
    intDec number ++ ":** ".toList ++ title ++
    "\n**View on GitHub:** ".toList ++ url

/-- The fixed prompt template of PlanHandler, as a function of its
interpolations (the literal architecture-document boilerplate between them,
sixteen numbered sections in the source, is abbreviated by its first line —
no claim depends on it). -/
def planPrompt (userName channelName ideaText : List Char) : List Char :=
  ("You are a senior software architect creating a detailed design document " ++
    "for a new feature idea.\n\nUser ").toList ++ userName ++
    " from ".toList ++ channelName ++
    " channel has submitted the following idea:\n\"".toList ++ ideaText ++
    "\"\n\nPlease create a comprehensive GitHub issue...".toList

/-- `lines[0].replace(/^#+\s*/, '')`: strip a leading run of `#` and the
following whitespace (the regex only matches at a `#` start). -/
def stripHeading (l : List Char) : List Char :=
  if l.head? = some '#' then
    (l.dropWhile (fun c => c = '#')).dropWhile isJsSpace
  else l

/-- Title extraction of PlanHandler: first line of the design doc with the
heading marker stripped, or `Feature Idea: ` + the first 50 chars of the
submission when that is empty (JS `||`). -/
def planTitle (designDoc text : List Char) : List Char :=
  if (stripHeading ((designDoc.splitOn '\n').headD [])).isEmpty then
    "Feature Idea: ".toList ++ text.take 50
  else stripHeading ((designDoc.splitOn '\n').headD [])

/-- Issue body assembled by PlanHandler. -/
def planIssueBody (userName ideaText designDoc : List Char) : List Char :=
  "## Submitted via Slack by @".toList ++ userName ++
    "\n\n**Original Idea:** ".toList ++ ideaText ++ "\n\n---\n\n".toList ++
    designDoc

/-- Labels applied by PlanHandler. -/
def planLabels : List (List Char) :=
  ["enhancement".toList, "design-document".toList, "needs-review".toList]

/-- `PlanHandler.handle`: the checked `Except` layer carries any uncaught
exception; the second component records the Slack posts attempted. -/
def planHandle (env : HandlerEnv) (d : SlackData) :
    Except (List Char) HandlerResponse × List SlackMsg :=
  if jsFalsyStr d.text || (jsTrim (d.text.getD [])).isEmpty then
    (Except.ok { success := false, error := some ("No idea provided".toList) },
      respondToSlack env d.response_url planUsageText)
  else
    match env.processCommand
        ((planRepoChoice env.parserEnv (d.text.getD [])).1 ++
          '/' :: (planRepoChoice env.parserEnv (d.text.getD [])).2.1)
        (planPrompt (jsInterp d.user_name) (jsInterp d.channel_name)
          (planRepoChoice env.parserEnv (d.text.getD [])).2.2) with
    | .error e =>
      (Except.ok { success := false, error := some e },
        respondToSlack env d.response_url (planAckText (d.text.getD [])) ++
          respondToSlack env d.response_url (planFailText e))
    | .ok designDoc =>
      match createIssue env.octoClient env.apiCreateIssue
          (planRepoChoice env.parserEnv (d.text.getD [])).1
          (planRepoChoice env.parserEnv (d.text.getD [])).2.1
          (planTitle designDoc (d.text.getD []))
          (planIssueBody (jsInterp d.user_name)
            (planRepoChoice env.parserEnv (d.text.getD [])).2.2 designDoc)
          planLabels with
      | .error e =>
        (Except.ok { success := false, error := some e },
          respondToSlack env d.response_url (planAckText (d.text.getD [])) ++
            respondToSlack env d.response_url (planFailText e))
      | .ok issue =>
        (Except.ok { success := true,
                     message := some ("Created issue #".toList ++
                       intDec issue.number) },
          respondToSlack env d.response_url (planAckText (d.text.getD [])) ++
            respondToSlack env d.response_url
              (planSuccessText issue.number issue.html_url
                (planTitle designDoc (d.text.getD []))))

/-- Usage reply of BugHandler. -/
def bugUsageText : List Char :=
  "❌ Please describe the bug. Usage: `/bug [description of the issue]`".toList

/-- Acknowledgment reply of BugHandler. -/
def bugAckText (text : List Char) : List Char :=
  "🔍 Analyzing bug report: \"".toList ++ text ++
    "\"\nI'll create a detailed root cause analysis and solution design...".toList

/-- Error reply of BugHandler's `catch` branch. -/
def bugFailText (e : List Char) : List Char :=
  "❌ Failed to create bug analysis: ".toList ++ e

/-- Success reply of BugHandler. -/
def bugSuccessText (number : Int) (url title : List Char) : List Char :=
  "✅ Bug analysis created successfully!\n\n**Issue #".toList ++
    intDec number ++ ":** ".toList ++ title ++
    "\n**View on GitHub:** ".toList ++ url

/-- The fixed prompt template of BugHandler (twelve-section root-cause
boilerplate abbreviated by its first line). -/
def bugPrompt (userName channelName text : List Char) : List Char :=
  ("You are a senior software engineer performing root cause analysis and " ++
    "solution design for a bug report.\n\nUser ").toList ++ userName ++
    " from ".toList ++ channelName ++
    " channel has reported the following bug:\n\"".toList ++ text ++
    "\"\n\nPlease create a comprehensive GitHub issue...".toList

/-- Title extraction of BugHandler (`Bug Report: ` fallback). -/
def bugTitle (analysis text : List Char) : List Char :=
  if (stripHeading ((analysis.splitOn '\n').headD [])).isEmpty then
    "Bug Report: ".toList ++ text.take 50
  else stripHeading ((analysis.splitOn '\n').headD [])

/-- Issue body assembled by BugHandler. -/
def bugIssueBody (userName text analysis : List Char) : List Char :=
  "## Reported via Slack by @".toList ++ userName ++
    "\n\n**Original Report:** ".toList ++ text ++ "\n\n---\n\n".toList ++
    analysis

/-- Labels applied by BugHandler. -/
def bugLabels : List (List Char) :=
  ["bug".toList, "needs-triage".toList, "root-cause-analysis".toList]

/-- `BugHandler.handle`: identical control skeleton to PlanHandler, but with
no repository parsing (see `bugRepoChoice`). -/
def bugHandle (env : HandlerEnv) (d : SlackData) :
    Except (List Char) HandlerResponse × List SlackMsg :=
  if jsFalsyStr d.text || (jsTrim (d.text.getD [])).isEmpty then
    (Except.ok { success := false,
                 error := some ("No bug description provided".toList) },
      respondToSlack env d.response_url bugUsageText)
  else
    match env.processCommand
        ((bugRepoChoice env.parserEnv (d.text.getD [])).1 ++
          '/' :: (bugRepoChoice env.parserEnv (d.text.getD [])).2.1)
        (bugPrompt (jsInterp d.user_name) (jsInterp d.channel_name)
          (d.text.getD [])) with
    | .error e =>
      (Except.ok { success := false, error := some e },
        respondToSlack env d.response_url (bugAckText (d.text.getD [])) ++
          respondToSlack env d.response_url (bugFailText e))
    | .ok analysis =>
      match createIssue env.octoClient env.apiCreateIssue
          (bugRepoChoice env.parserEnv (d.text.getD [])).1
          (bugRepoChoice env.parserEnv (d.text.getD [])).2.1
          (bugTitle analysis (d.text.getD []))
          (bugIssueBody (jsInterp d.user_name) (d.text.getD []) analysis)
          bugLabels with
      | .error e =>
        (Except.ok { success := false, error := some e },
          respondToSlack env d.response_url (bugAckText (d.text.getD [])) ++
            respondToSlack env d.response_url (bugFailText e))
      | .ok issue =>
        (Except.ok { success := true,
                     message := some ("Created issue #".toList ++
                       intDec issue.number) },
          respondToSlack env d.response_url (bugAckText (d.text.getD [])) ++
            respondToSlack env d.response_url
              (bugSuccessText issue.number issue.html_url
                (bugTitle analysis (d.text.getD []))))

/-- Configuration-error reply of TestHandler. -/
def testConfigText : List Char :=
  ("❌ DEFAULT_GITHUB_OWNER not configured. Please specify repository as: " ++
    "`/test owner/repo [command]`").toList

/-- Acknowledgment reply of TestHandler. -/
def testAckText (repoFullName : List Char) : List Char :=
  "🧪 Processing test command for repository: ".toList ++ repoFullName

/-- Error reply of TestHandler's `catch` branch. -/
def testFailText (e : List Char) : List Char :=
  "❌ Test failed: ".toList ++ e

/-- Success reply of TestHandler, with the 500-char response truncation. -/
def testSuccessText (resp : List Char) : List Char :=
  "✅ Test completed!\n\n".toList ++ resp.take 500 ++
    (if resp.length > 500 then "...".toList else [])

/-- The fixed prompt template of TestHandler. -/
def testPrompt (userName channelName repoFullName command : List Char) :
    List Char :=
  "You are responding to a webhook test from Slack.\n\nUser ".toList ++
    userName ++ " from ".toList ++ channelName ++
    " channel sent a test command.\nRepository: ".toList ++ repoFullName ++
    "\nCommand: ".toList ++ command ++
    ("\n\nPlease acknowledge the test and perform the requested action if " ++
      "any.\nIf it's just a test, create a simple acknowledgment.").toList

/-- The command text of TestHandler: `remainingText || 'webhook test
acknowledgment'`. -/
def testCommandText (remainingText : List Char) : List Char :=
  if remainingText.isEmpty then "webhook test acknowledgment".toList
  else remainingText

/-- The backward-compatibility configuration guard of TestHandler:
`!parsed.isExplicit && !DEFAULT_GITHUB_OWNER &&
!DEFAULT_GITHUB_REPO?.includes('/')`. -/
def testConfigMissing (env : HandlerEnv) (d : SlackData) : Bool :=
  !(testRepoChoice env.parserEnv d.text).isExplicit &&
    jsFalsyStr env.parserEnv.DEFAULT_GITHUB_OWNER &&
    !(match env.parserEnv.DEFAULT_GITHUB_REPO with
      | none => false
      | some rp => rp.contains '/')

/-- `TestHandler.handle`. -/
def testHandle (env : HandlerEnv) (d : SlackData) :
    Except (List Char) HandlerResponse × List SlackMsg :=
  if testConfigMissing env d then
    (Except.ok { success := false,
                 error := some ("DEFAULT_GITHUB_OWNER not configured".toList) },
      respondToSlack env d.response_url testConfigText)
  else
    match env.processCommand
        ((testRepoChoice env.parserEnv d.text).owner ++
          '/' :: (testRepoChoice env.parserEnv d.text).repo)
        (testPrompt (jsInterp d.user_name) (jsInterp d.channel_name)
          ((testRepoChoice env.parserEnv d.text).owner ++
            '/' :: (testRepoChoice env.parserEnv d.text).repo)
          (testCommandText
            (testRepoChoice env.parserEnv d.text).remainingText)) with
    | .error e =>
      (Except.ok { success := false, error := some e },
        respondToSlack env d.response_url
          (testAckText ((testRepoChoice env.parserEnv d.text).owner ++
            '/' :: (testRepoChoice env.parserEnv d.text).repo)) ++
          respondToSlack env d.response_url (testFailText e))
    | .ok resp =>
      (Except.ok { success := true,
                   message := some ("Test command processed".toList) },
        respondToSlack env d.response_url
          (testAckText ((testRepoChoice env.parserEnv d.text).owner ++
            '/' :: (testRepoChoice env.parserEnv d.text).repo)) ++
          respondToSlack env d.response_url (testSuccessText resp))

/- ## slackNotificationService.ts (second part of src/services/githubService.ts) -/

/-- The environment-derived configuration of `SlackNotificationService`:
`clientPresent` models `this.client !== null`. -/
structure NotifConfig where
  clientPresent : Bool
  enabled : Bool
  notifyOnSuccess : Bool
  notifyOnError : Bool
  minDurationMs : Int
  deriving Repr, DecidableEq

/-- `TaskContext` from the notification service. -/
structure TaskContext where
  repoFullName : List Char
  issueNumber : Option Int := none
  pullRequestNumber : Option Int := none
  type : List Char
  user : List Char
  command : List Char
  startTime : Int
  branchName : Option (List Char) := none
  deriving Repr, DecidableEq

/-- `TaskResult` from the notification service; an `Error` is modelled by its
message. -/
structure TaskResult where
  success : Bool
  responsePreview : Option (List Char) := none
  githubUrl : List Char := []
  duration : Option Int := none
  error : Option (List Char) := none
  deriving Repr, DecidableEq

/-- The posting decision of `SlackNotificationService.notifyTaskComplete`:
`true` exactly when a `chat.postMessage` is attempted.  Returns early when
the client/enabled/success-toggle guard fails, and skips quick operations via
`!result.error && duration < minDurationMs` where
`duration = result.duration ?? (Date.now() - context.startTime)`. -/
def notifyTaskComplete (cfg : NotifConfig) (nowMs : Int)
    (context : TaskContext) (result : TaskResult) : Bool :=
  if !cfg.clientPresent || !cfg.enabled || !cfg.notifyOnSuccess then false
  else if result.error.isNone ∧
      result.duration.getD (nowMs - context.startTime) < cfg.minDurationMs then
    false
  else true

/-- The posting decision of `SlackNotificationService.notifyTaskError`: no
duration is consulted at all. -/
def notifyTaskError (cfg : NotifConfig) : Bool :=
  if !cfg.clientPresent || !cfg.enabled || !cfg.notifyOnError then false
  else true

/- ## Response Extraction Protocol -/

/-- Wire sentinel `__CLAUDE_RESPONSE_START__` (byte-exact, on its own line). -/
def responseStartMarker : List Char := "__CLAUDE_RESPONSE_START__".toList

/-- Wire sentinel `__CLAUDE_RESPONSE_END__` (byte-exact, on its own line). -/
def responseEndMarker : List Char := "__CLAUDE_RESPONSE_END__".toList

/-- The tool-invocation marker pattern of the heuristic, from the sandbox
entrypoint's `grep -n "^Tool:\|^Using\|^Running\|^Executing"`. -/
def isToolMarkerLine (l : List Char) : Bool :=
  List.isPrefixOf ("Tool:".toList) l || List.isPrefixOf ("Using".toList) l ||
    List.isPrefixOf ("Running".toList) l ||
    List.isPrefixOf ("Executing".toList) l

/-- Outcome of response extraction: the authoritative sentinel-delimited
answer, a degraded heuristic answer, or an explicit extraction failure. -/
inductive ExtractResult where
  | fromSentinels : List (List Char) → ExtractResult
  | fromHeuristic : List (List Char) → ExtractResult
  | failure : ExtractResult
  deriving Repr, DecidableEq

/-- Modelled from the spec: the fallback branch of the Response Extraction
Protocol — locate the last line matching the tool-invocation marker pattern
and take everything after it, blank lines stripped; when no marker occurs the
entire output is taken; empty content is an explicit failure. -/
def heuristicExtract (lines : List (List Char)) : ExtractResult :=
  let body :=
    match lines.reverse.findIdx? isToolMarkerLine with
    | some k => (lines.drop (lines.length - k)).filter (fun l => !l.isEmpty)
    | none => lines
  if body.isEmpty then .failure else .fromHeuristic body

/-- Modelled from the spec: the Response Extraction Protocol of the Execution
Sandbox Adapter (the output-scanning side, in `claudeService`) is not among
the provided sources — only the emitting side (the sandbox entrypoint
scripts) is.  Per §4.5: the combined output's lines are scanned for the
explicit start/end sentinel lines; everything strictly between them, blank
lines stripped, is the authoritative answer; the heuristic is the fallback
when the sentinels are absent; empty content is an explicit extraction
failure, never a silent empty answer. -/
def extractResponse (lines : List (List Char)) : ExtractResult :=
  match List.findIdx? (fun l => l == responseStartMarker) lines with
  | some i =>
    match List.findIdx? (fun l => l == responseEndMarker)
        (lines.drop (i + 1)) with
    | some j =>
      let body := ((lines.drop (i + 1)).take j).filter (fun l => !l.isEmpty)
      if body.isEmpty then .failure else .fromSentinels body
    | none => heuristicExtract lines
  | none => heuristicExtract lines

/- ## Helper lemmas -/

/-- `List.findIdx?` returns an index no later than any index whose element
satisfies the predicate. -/
lemma findIdx?_min {α : Type} (p : α → Bool) :
    ∀ (l : List α) (s i₀ : Nat), List.findIdx? p l s = some i₀ →
      ∀ (k : Nat) (x : α), l.get? k = some x → p x = true → i₀ ≤ s + k := by
  intro l
  induction l with
  | nil => intro s i₀ h; simp [List.findIdx?] at h
  | cons y ys ih =>
    intro s i₀ h k x hk hp
    rw [List.findIdx?_cons] at h
    by_cases hy : p y = true
    · rw [if_pos hy] at h
      injection h with h
      omega
    · rw [if_neg hy] at h
      cases k with
      | zero =>
        rw [List.get?_cons_zero] at hk
        injection hk with hk
        exact absurd (hk ▸ hp) hy
      | succ k =>
        rw [List.get?_cons_succ] at hk
        have := ih (s + 1) i₀ h k x hk hp
        omega

/-- `takeWhile`/`dropWhile` on a list made of a satisfying run, a failing
element and a tail. -/
lemma takeWhile_append_not {α : Type} (p : α → Bool) :
    ∀ (l₁ : List α) (c : α) (l₂ : List α), (∀ x ∈ l₁, p x = true) →
      p c = false →
      (l₁ ++ c :: l₂).takeWhile p = l₁ ∧
        (l₁ ++ c :: l₂).dropWhile p = c :: l₂ := by
  intro l₁
  induction l₁ with
  | nil =>
    intro c l₂ _ hc
    simp [List.takeWhile_cons, List.dropWhile_cons, hc]
  | cons y ys ih =>
    intro c l₂ h hc
    have hy : p y = true := h y (List.mem_cons_self y ys)
    have hih := ih c l₂ (fun x hx => h x (List.mem_cons_of_mem y hx)) hc
    simp [List.takeWhile_cons, List.dropWhile_cons, hy, hih.1, hih.2]

/-- The head of a `dropWhile` residue fails the predicate. -/
lemma dropWhile_head_false {α : Type} (p : α → Bool) :
    ∀ (l : List α) (c : α) (t : List α), l.dropWhile p = c :: t →
      p c = false := by
  intro l
  induction l with
  | nil => intro c t h; simp at h
  | cons y ys ih =>
    intro c t h
    rw [List.dropWhile_cons] at h
    by_cases hy : p y = true
    · rw [if_pos hy] at h
      exact ih c t h
    · rw [if_neg hy] at h
      injection h with h1 _
      subst h1
      exact Bool.eq_false_iff.mpr hy

/-- `splitOnP` at the first separator occurrence. -/
lemma splitOnP_first {α : Type} (p : α → Bool) :
    ∀ (before : List α) (c : α) (after : List α),
      (∀ x ∈ before, p x = false) → p c = true →
      List.splitOnP p (before ++ c :: after) =
        before :: List.splitOnP p after := by
  intro before
  induction before with
  | nil =>
    intro c after _ hc
    rw [List.nil_append, List.splitOnP_cons, if_pos hc]
  | cons b bs ih =>
    intro c after h hc
    have hb : p b = false := h b (List.mem_cons_self b bs)
    rw [List.cons_append, List.splitOnP_cons, if_neg (by simp [hb]),
      ih c after (fun x hx => h x (List.mem_cons_of_mem b hx)) hc,
      List.modifyHead_cons]

/-- `dropWhile` never lengthens a list. -/
lemma dropWhile_length_le {α : Type} (p : α → Bool) (l : List α) :
    (l.dropWhile p).length ≤ l.length := by
  induction l with
  | nil => simp
  | cons c t ih =>
    rw [List.dropWhile_cons]
    by_cases hc : p c = true
    · rw [if_pos hc]
      simp only [List.length_cons]
      omega
    · rw [if_neg hc]

/-- A list fixed by `dropWhile` has a head failing the predicate. -/
lemma dropWhile_cons_self_head {α : Type} (p : α → Bool) (c : α) (t : List α)
    (h : (c :: t).dropWhile p = c :: t) : p c = false := by
  by_cases hc : p c = true
  · rw [List.dropWhile_cons, if_pos hc] at h
    have hlen := dropWhile_length_le p t
    have hlen2 := congrArg List.length h
    simp only [List.length_cons] at hlen2
    omega
  · exact Bool.eq_false_iff.mpr hc

/-- `dropWhile` is idempotent. -/
lemma dropWhile_idem {α : Type} (p : α → Bool) (l : List α) :
    (l.dropWhile p).dropWhile p = l.dropWhile p := by
  cases h : l.dropWhile p with
  | nil => rfl
  | cons c t =>
    rw [List.dropWhile_cons,
      if_neg (by rw [dropWhile_head_false p l c t h]; exact Bool.false_ne_true)]

/-- Right-trimming preserves the left-trimmed property. -/
lemma dropWhile_reverse_dropWhile {α : Type} (p : α → Bool) (l : List α)
    (hl : l.dropWhile p = l) :
    ((l.reverse.dropWhile p).reverse).dropWhile p =
      (l.reverse.dropWhile p).reverse := by
  have hdecomp : l =
      (l.reverse.dropWhile p).reverse ++ (l.reverse.takeWhile p).reverse := by
    conv_lhs =>
      rw [← List.reverse_reverse l,
        ← List.takeWhile_append_dropWhile p l.reverse]
    rw [List.reverse_append]
  cases hc : (l.reverse.dropWhile p).reverse with
  | nil => rfl
  | cons c t =>
    have hl' : l = c :: (t ++ (l.reverse.takeWhile p).reverse) := by
      conv_lhs => rw [hdecomp, hc]
      exact rfl
    have hfix : (c :: (t ++ (l.reverse.takeWhile p).reverse)).dropWhile p =
        c :: (t ++ (l.reverse.takeWhile p).reverse) := by
      rw [← hl']
      exact hl
    have hpc : p c = false := dropWhile_cons_self_head p c _ hfix
    rw [List.dropWhile_cons, if_neg (by rw [hpc]; exact Bool.false_ne_true)]

/-- JS `trim` is idempotent. -/
lemma jsTrim_idem (s : List Char) : jsTrim (jsTrim s) = jsTrim s := by
  have hA : (s.dropWhile isJsSpace).dropWhile isJsSpace =
      s.dropWhile isJsSpace := dropWhile_idem isJsSpace s
  have h1 := dropWhile_reverse_dropWhile isJsSpace (s.dropWhile isJsSpace) hA
  show (((((((s.dropWhile isJsSpace).reverse.dropWhile
    isJsSpace).reverse).dropWhile isJsSpace).reverse).dropWhile
      isJsSpace)).reverse = jsTrim s
  rw [h1, List.reverse_reverse, dropWhile_idem]
  rfl

/-- `respondToSlack` without a response URL posts nothing. -/
lemma respondToSlack_none (env : HandlerEnv) (t : List Char) :
    respondToSlack env none t = [] := rfl

/-- `respondToSlack` with a response URL records exactly one attempted post,
whether or not the delivery succeeds. -/
lemma respondToSlack_some (env : HandlerEnv) (u t : List Char) :
    respondToSlack env (some u) t = [{ url := u, text := t }] := by
  cases h : env.axiosPost u t <;> simp [respondToSlack, h]

/-- `PlanHandler.handle` never propagates an exception, and every failing
response carries an error message after a `❌` relay to the response URL. -/
lemma planHandle_safe (env : HandlerEnv) (d : SlackData) :
    (planHandle env d).1.isOk = true ∧
    (∀ resp, (planHandle env d).1 = Except.ok resp → resp.success = false →
      resp.error.isSome = true ∧
      ∀ u, d.response_url = some u →
        ∃ m ∈ (planHandle env d).2, m.url = u ∧
          m.text.head? = some '❌') := by
  by_cases h0 : (jsFalsyStr d.text || (jsTrim (d.text.getD [])).isEmpty) = true
  · rw [planHandle, if_pos h0]
    refine ⟨rfl, fun resp hr hs => ?_⟩
    injection hr with h
    subst h
    refine ⟨rfl, fun u hu => ?_⟩
    rw [hu, respondToSlack_some]
    exact ⟨{ url := u, text := planUsageText }, by simp, rfl, rfl⟩
  · rw [planHandle, if_neg h0]
    cases hpc : env.processCommand
        ((planRepoChoice env.parserEnv (d.text.getD [])).1 ++
          '/' :: (planRepoChoice env.parserEnv (d.text.getD [])).2.1)
        (planPrompt (jsInterp d.user_name) (jsInterp d.channel_name)
          (planRepoChoice env.parserEnv (d.text.getD [])).2.2) with
    | error e =>
      dsimp only
      refine ⟨rfl, fun resp hr hs => ?_⟩
      injection hr with h
      subst h
      refine ⟨rfl, fun u hu => ?_⟩
      rw [hu, respondToSlack_some, respondToSlack_some]
      exact ⟨{ url := u, text := planFailText e }, by simp, rfl, rfl⟩
    | ok designDoc =>
      dsimp only
      cases hci : createIssue env.octoClient env.apiCreateIssue
          (planRepoChoice env.parserEnv (d.text.getD [])).1
          (planRepoChoice env.parserEnv (d.text.getD [])).2.1
          (planTitle designDoc (d.text.getD []))
          (planIssueBody (jsInterp d.user_name)
            (planRepoChoice env.parserEnv (d.text.getD [])).2.2 designDoc)
          planLabels with
      | error e =>
        dsimp only
        refine ⟨rfl, fun resp hr hs => ?_⟩
        injection hr with h
        subst h
        refine ⟨rfl, fun u hu => ?_⟩
        rw [hu, respondToSlack_some, respondToSlack_some]
        exact ⟨{ url := u, text := planFailText e }, by simp, rfl, rfl⟩
      | ok issue =>
        dsimp only
        refine ⟨rfl, fun resp hr hs => ?_⟩
        injection hr with h
        subst h
        exact absurd hs (by simp)

/-- `BugHandler.handle` never propagates an exception, and every failing
response carries an error message after a `❌` relay to the response URL. -/
lemma bugHandle_safe (env : HandlerEnv) (d : SlackData) :
    (bugHandle env d).1.isOk = true ∧
    (∀ resp, (bugHandle env d).1 = Except.ok resp → resp.success = false →
      resp.error.isSome = true ∧
      ∀ u, d.response_url = some u →
        ∃ m ∈ (bugHandle env d).2, m.url = u ∧
          m.text.head? = some '❌') := by
  by_cases h0 : (jsFalsyStr d.text || (jsTrim (d.text.getD [])).isEmpty) = true
  · rw [bugHandle, if_pos h0]
    refine ⟨rfl, fun resp hr hs => ?_⟩
    injection hr with h
    subst h
    refine ⟨rfl, fun u hu => ?_⟩
    rw [hu, respondToSlack_some]
    exact ⟨{ url := u, text := bugUsageText }, by simp, rfl, rfl⟩
  · rw [bugHandle, if_neg h0]
    cases hpc : env.processCommand
        ((bugRepoChoice env.parserEnv (d.text.getD [])).1 ++
          '/' :: (bugRepoChoice env.parserEnv (d.text.getD [])).2.1)
        (bugPrompt (jsInterp d.user_name) (jsInterp d.channel_name)
          (d.text.getD [])) with
    | error e =>
      dsimp only
      refine ⟨rfl, fun resp hr hs => ?_⟩
      injection hr with h
      subst h
      refine ⟨rfl, fun u hu => ?_⟩
      rw [hu, respondToSlack_some, respondToSlack_some]
      exact ⟨{ url := u, text := bugFailText e }, by simp, rfl, rfl⟩
    | ok analysis =>
      dsimp only
      cases hci : createIssue env.octoClient env.apiCreateIssue
          (bugRepoChoice env.parserEnv (d.text.getD [])).1
          (bugRepoChoice env.parserEnv (d.text.getD [])).2.1
          (bugTitle analysis (d.text.getD []))
          (bugIssueBody (jsInterp d.user_name) (d.text.getD []) analysis)
          bugLabels with
      | error e =>
        dsimp only
        refine ⟨rfl, fun resp hr hs => ?_⟩
        injection hr with h
        subst h
        refine ⟨rfl, fun u hu => ?_⟩
        rw [hu, respondToSlack_some, respondToSlack_some]
        exact ⟨{ url := u, text := bugFailText e }, by simp, rfl, rfl⟩
      | ok issue =>
        dsimp only
        refine ⟨rfl, fun resp hr hs => ?_⟩
        injection hr with h
        subst h
        exact absurd hs (by simp)

/-- `TestHandler.handle` never propagates an exception, and every failing
response carries an error message after a `❌` relay to the response URL. -/
lemma testHandle_safe (env : HandlerEnv) (d : SlackData) :
    (testHandle env d).1.isOk = true ∧
    (∀ resp, (testHandle env d).1 = Except.ok resp → resp.success = false →
      resp.error.isSome = true ∧
      ∀ u, d.response_url = some u →
        ∃ m ∈ (testHandle env d).2, m.url = u ∧
          m.text.head? = some '❌') := by
  by_cases h0 : testConfigMissing env d = true
  · rw [testHandle, if_pos h0]
    refine ⟨rfl, fun resp hr hs => ?_⟩
    injection hr with h
    subst h
    refine ⟨rfl, fun u hu => ?_⟩
    rw [hu, respondToSlack_some]
    exact ⟨{ url := u, text := testConfigText }, by simp, rfl, rfl⟩
  · rw [testHandle, if_neg h0]
    cases hpc : env.processCommand
        ((testRepoChoice env.parserEnv d.text).owner ++
          '/' :: (testRepoChoice env.parserEnv d.text).repo)
        (testPrompt (jsInterp d.user_name) (jsInterp d.channel_name)
          ((testRepoChoice env.parserEnv d.text).owner ++
            '/' :: (testRepoChoice env.parserEnv d.text).repo)
          (testCommandText
            (testRepoChoice env.parserEnv d.text).remainingText)) with
    | error e =>
      dsimp only
      refine ⟨rfl, fun resp hr hs => ?_⟩
      injection hr with h
      subst h
      refine ⟨rfl, fun u hu => ?_⟩
      rw [hu, respondToSlack_some, respondToSlack_some]
      exact ⟨{ url := u, text := testFailText e }, by simp, rfl, rfl⟩
    | ok resp0 =>
      dsimp only
      refine ⟨rfl, fun resp hr hs => ?_⟩
      injection hr with h
      subst h
      exact absurd hs (by simp)

/-- A JS whitespace character is not a `[\w.-]` character. -/
lemma jsSpace_not_repoChar (c : Char) (h : isJsSpace c = true) :
    isRepoChar c = false := by
  simp only [isJsSpace, Bool.or_eq_true, decide_eq_true_eq] at h
  rcases h with ((((rfl | rfl) | rfl) | rfl) | rfl) | rfl <;> decide

/-- A JS whitespace character is not a `[\w-]` character. -/
lemma jsSpace_not_planChar (c : Char) (h : isJsSpace c = true) :
    isPlanChar c = false := by
  simp only [isJsSpace, Bool.or_eq_true, decide_eq_true_eq] at h
  rcases h with ((((rfl | rfl) | rfl) | rfl) | rfl) | rfl <;> decide

/-- Soundness half of `sharedRepoMatch`: a produced match satisfies the
spec-side regex description. -/
lemma sharedRepoMatch_sound (s o r : List Char) (g3 : Option (List Char))
    (h : sharedRepoMatch s = some (o, r, g3)) :
    MatchesRepoPattern s o r g3 := by
  rw [sharedRepoMatch] at h
  by_cases h1 : (s.takeWhile isRepoChar).isEmpty = true
  · rw [if_pos h1] at h
    exact absurd h (by simp)
  rw [if_neg h1] at h
  cases hd : s.dropWhile isRepoChar with
  | nil =>
    rw [hd] at h
    exact absurd h (by simp)
  | cons c s2 =>
    rw [hd] at h
    dsimp only at h
    by_cases hc : c = '/'
    case neg =>
      rw [if_neg hc] at h
      exact absurd h (by simp)
    rw [if_pos hc] at h
    subst hc
    by_cases h2 : (s2.takeWhile isRepoChar).isEmpty = true
    · rw [if_pos h2] at h
      exact absurd h (by simp)
    rw [if_neg h2] at h
    have hs : s = s.takeWhile isRepoChar ++ '/' :: s2 := by
      conv_lhs => rw [← List.takeWhile_append_dropWhile isRepoChar s]
      rw [hd]
    have hoall : (s.takeWhile isRepoChar).all isRepoChar = true :=
      List.all_eq_true.mpr (fun x hx => List.mem_takeWhile_imp hx)
    have hrall : (s2.takeWhile isRepoChar).all isRepoChar = true :=
      List.all_eq_true.mpr (fun x hx => List.mem_takeWhile_imp hx)
    have hone : s.takeWhile isRepoChar ≠ [] := by
      simpa [List.isEmpty_eq_true] using h1
    have hrne : s2.takeWhile isRepoChar ≠ [] := by
      simpa [List.isEmpty_eq_true] using h2
    by_cases h3 : (s2.dropWhile isRepoChar).isEmpty = true
    · rw [if_pos h3] at h
      simp only [Option.some_inj, Prod.mk.injEq] at h
      obtain ⟨ho', hr', hg'⟩ := h
      subst ho' hr' hg'
      have hdw : s2.dropWhile isRepoChar = [] := by
        simpa [List.isEmpty_eq_true] using h3
      have hs2 : s2.takeWhile isRepoChar = s2 := by
        have happ := List.takeWhile_append_dropWhile isRepoChar s2
        rw [hdw, List.append_nil] at happ
        exact happ
      exact ⟨hone, hoall, hrne, hrall, Or.inl ⟨rfl, by rw [hs2]; exact hs⟩⟩
    rw [if_neg h3] at h
    by_cases h4 :
        ((s2.dropWhile isRepoChar).takeWhile isJsSpace).isEmpty = true
    · rw [if_pos h4] at h
      exact absurd h (by simp)
    rw [if_neg h4] at h
    by_cases h5 :
        ((s2.dropWhile isRepoChar).dropWhile isJsSpace).all isDotChar = true
    · rw [if_pos h5] at h
      simp only [Option.some_inj, Prod.mk.injEq] at h
      obtain ⟨ho', hr', hg'⟩ := h
      subst ho' hr' hg'
      refine ⟨hone, hoall, hrne, hrall, Or.inr
        ⟨(s2.dropWhile isRepoChar).takeWhile isJsSpace,
          (s2.dropWhile isRepoChar).dropWhile isJsSpace, rfl,
          by simpa [List.isEmpty_eq_true] using h4,
          List.all_eq_true.mpr (fun x hx => List.mem_takeWhile_imp hx),
          h5, fun c t ht => dropWhile_head_false isJsSpace _ c t ht, ?_⟩⟩
      conv_lhs => rw [hs]
      rw [List.append_assoc, List.takeWhile_append_dropWhile,
        List.takeWhile_append_dropWhile]
    · rw [if_neg h5] at h
      exact absurd h (by simp)

/-- Completeness half of `sharedRepoMatch`: any spec-side decomposition is
found (and produces exactly those capture groups). -/
lemma sharedRepoMatch_complete (s o r : List Char) (g3 : Option (List Char))
    (h : MatchesRepoPattern s o r g3) : sharedRepoMatch s = some (o, r, g3) := by
  obtain ⟨ho, hoall, hr, hrall, hcase⟩ := h
  have hoall' : ∀ x ∈ o, isRepoChar x = true := List.all_eq_true.mp hoall
  have hrall' : ∀ x ∈ r, isRepoChar x = true := List.all_eq_true.mp hrall
  rcases hcase with ⟨hg, hs⟩ | ⟨w, rest, hg, hw, hwall, hrestdot, hresthead, hs⟩
  · subst hg hs
    have ht := takeWhile_append_not isRepoChar o '/' r hoall' (by decide)
    have htw : r.takeWhile isRepoChar = r := List.takeWhile_eq_self_iff.mpr hrall'
    have hdw : r.dropWhile isRepoChar = [] := List.dropWhile_eq_nil_iff.mpr hrall'
    rw [sharedRepoMatch, ht.1, ht.2,
      if_neg (by simp only [List.isEmpty_eq_true]; exact ho)]
    dsimp only
    rw [if_pos rfl, htw, hdw,
      if_neg (by simp only [List.isEmpty_eq_true]; exact hr),
      if_pos List.isEmpty_nil]
  · subst hg hs
    cases w with
    | nil => exact absurd rfl hw
    | cons wc wt =>
      have hwall' : ∀ x ∈ wc :: wt, isJsSpace x = true :=
        List.all_eq_true.mp hwall
      have hwc : isJsSpace wc = true := hwall' wc (List.mem_cons_self wc wt)
      have ht := takeWhile_append_not isRepoChar o '/'
        (r ++ (wc :: wt) ++ rest) hoall' (by decide)
      have hassoc : r ++ (wc :: wt) ++ rest = r ++ wc :: (wt ++ rest) := by
        simp [List.append_assoc]
      have ht2 := takeWhile_append_not isRepoChar r wc (wt ++ rest) hrall'
        (jsSpace_not_repoChar wc hwc)
      have htw3 : ((wc :: wt) ++ rest).takeWhile isJsSpace = wc :: wt ∧
          ((wc :: wt) ++ rest).dropWhile isJsSpace = rest := by
        cases rest with
        | nil =>
          rw [List.append_nil]
          exact ⟨List.takeWhile_eq_self_iff.mpr hwall',
            List.dropWhile_eq_nil_iff.mpr hwall'⟩
        | cons rc rt =>
          exact takeWhile_append_not isJsSpace (wc :: wt) rc rt hwall'
            (hresthead rc rt rfl)
      rw [sharedRepoMatch, ht.1, ht.2,
        if_neg (by simp only [List.isEmpty_eq_true]; exact ho)]
      dsimp only
      rw [if_pos rfl, hassoc, ht2.1, ht2.2,
        if_neg (by simp only [List.isEmpty_eq_true]; exact hr),
        if_neg (by simp),
        show wc :: (wt ++ rest) = (wc :: wt) ++ rest from rfl,
        htw3.1, htw3.2, if_neg (by simp), if_pos hrestdot]

/-- The stand-in digest has the 64-byte output length of a real HMAC-SHA256
hex digest. -/
lemma digest64_len : ∀ s m, utf8Len (digest64 s m) = 64 := by
  intro s m
  simp only [digest64]
  decide

/-- UTF-8 byte length distributes over concatenation. -/
lemma utf8Len_append (a b : List Char) :
    utf8Len (a ++ b) = utf8Len a + utf8Len b := by
  simp [utf8Len]

/-- The owner regex accepts exactly the non-empty hyphen/alphanumeric strings
whose first and last characters are alphanumeric. -/
lemma ownerRegexTest_iff (s : List Char) :
    ownerRegexTest s = true ↔
      s ≠ [] ∧ (∀ c ∈ s, c.isAlphanum = true ∨ c = '-') ∧
      (∀ c, s.head? = some c → c.isAlphanum = true) ∧
      (∀ c, s.getLast? = some c → c.isAlphanum = true) := by
  cases s with
  | nil => simp [ownerRegexTest]
  | cons c rest =>
    rcases eq_or_ne rest [] with hrest | hrest
    · subst hrest
      simp only [ownerRegexTest, List.isEmpty_nil, Bool.true_or,
        Bool.and_true, List.head?_cons, List.getLast?_singleton,
        ne_eq, reduceCtorEq, not_false_iff, true_and, List.mem_singleton]
      constructor
      · intro h
        exact ⟨fun x hx => by subst hx; exact Or.inl h,
          fun x hx => by cases hx; exact h, fun x hx => by cases hx; exact h⟩
      · intro ⟨_, h2, _⟩
        exact h2 c rfl
    · have hdecomp := List.dropLast_append_getLast hrest
      have hre : rest.isEmpty = false := by
        simpa [List.isEmpty_eq_false]
      have hlast : (c :: rest).getLast? = some (rest.getLast hrest) := by
        rw [List.getLast?_cons, List.getLast?_eq_getLast rest hrest]
        rfl
      have hlastD : rest.getLastD 'a' = rest.getLast hrest := by
        cases rest with
        | nil => exact absurd rfl hrest
        | cons d ds =>
          rw [List.getLastD_eq_getLast?, List.getLast?_eq_getLast _ hrest]
          rfl
      simp only [ownerRegexTest, hre, Bool.false_or,
        Bool.and_eq_true, List.all_eq_true, hlastD, ne_eq, reduceCtorEq,
        not_false_iff, true_and, List.head?_cons, hlast, List.mem_cons,
        Option.some_inj]
      constructor
      · rintro ⟨hc, hmid, hl⟩
        refine ⟨?_, ?_, ?_⟩
        · rintro x (rfl | hx)
          · exact Or.inl hc
          · rw [← hdecomp, List.mem_append] at hx
            rcases hx with hx | hx
            · have := hmid x hx
              simpa using this
            · simp only [List.mem_singleton] at hx
              subst hx; exact Or.inl hl
        · rintro x rfl; exact hc
        · rintro x rfl; exact hl
      · rintro ⟨hmem, hhead, hl⟩
        refine ⟨hhead c rfl, ?_, hl _ rfl⟩
        intro x hx
        have hx' : x ∈ rest := by
          rw [← hdecomp, List.mem_append]; exact Or.inl hx
        have := hmem x (Or.inr hx')
        simpa using this

/-- The repo regex accepts exactly the non-empty strings over
alphanumerics, dots, underscores and hyphens. -/
lemma repoRegexTest_iff (s : List Char) :
    repoRegexTest s = true ↔
      s ≠ [] ∧ ∀ c ∈ s, c.isAlphanum = true ∨ c = '.' ∨ c = '_' ∨ c = '-' := by
  simp only [repoRegexTest, Bool.and_eq_true, Bool.not_eq_true',
    List.isEmpty_eq_false, List.all_eq_true, ne_eq, and_congr_right_iff]
  refine fun _ => ⟨?_, ?_⟩ <;> intro h x hx <;> have := h x hx <;>
    simp only [Bool.or_eq_true, decide_eq_true_eq] at this ⊢ <;> tauto

/- ## Claim theorems -/

/-- C6: `isValidRepository(owner, repo)` returns true exactly when the owner
matches `^[a-zA-Z0-9]([a-zA-Z0-9-]*[a-zA-Z0-9])?$` (non-empty, only
alphanumerics and hyphens, first and last characters alphanumeric) and the
repo matches `^[a-zA-Z0-9._-]+$` (non-empty, only alphanumerics, dots,
underscores and hyphens); in particular `("-owner","repo")`,
`("owner-","repo")`, `("owner..name","repo")` and `("owner","")` are invalid
while `("DKG-Technology-LLC","the-rail")` is valid. -/
theorem c6_isValidRepository_spec :
    (∀ owner repo : List Char,
      isValidRepository owner repo = true ↔
        (owner ≠ [] ∧ (∀ c ∈ owner, c.isAlphanum = true ∨ c = '-') ∧
          (∀ c, owner.head? = some c → c.isAlphanum = true) ∧
          (∀ c, owner.getLast? = some c → c.isAlphanum = true) ∧
          repo ≠ [] ∧
          (∀ c ∈ repo, c.isAlphanum = true ∨ c = '.' ∨ c = '_' ∨ c = '-'))) ∧
    isValidRepository ("-owner".toList) ("repo".toList) = false ∧
    isValidRepository ("owner-".toList) ("repo".toList) = false ∧
    isValidRepository ("owner..name".toList) ("repo".toList) = false ∧
    isValidRepository ("owner".toList) [] = false ∧
    isValidRepository ("DKG-Technology-LLC".toList) ("the-rail".toList) = true := by
  refine ⟨?_, by decide, by decide, by decide, by decide, by decide⟩
  intro owner repo
  rw [isValidRepository, Bool.and_eq_true, ownerRegexTest_iff, repoRegexTest_iff]
  tauto

/-- C1 counterexample: the operation type `"totally-unrecognized-type"` is
outside the enumerated cases, yet the selected allow-list contains the
`Write`, `Edit`, `Create` and unrestricted `Bash` tools — it is the
full-access profile, not a read-only one. -/
theorem c1_counterexample :
    "totally-unrecognized-type".toList ≠ "auto-tagging".toList ∧
    "totally-unrecognized-type".toList ≠ "pr-review".toList ∧
    "totally-unrecognized-type".toList ≠ "manual-pr-review".toList ∧
    "Write".toList ∈ toolNames (ALLOWED_TOOLS "totally-unrecognized-type".toList) ∧
    "Edit".toList ∈ toolNames (ALLOWED_TOOLS "totally-unrecognized-type".toList) ∧
    "Create".toList ∈ toolNames (ALLOWED_TOOLS "totally-unrecognized-type".toList) ∧
    "Bash".toList ∈ toolNames (ALLOWED_TOOLS "totally-unrecognized-type".toList) := by
  decide

/-- C1 (amended): only `auto-tagging` and `pr-review`/`manual-pr-review`
receive restricted allow-lists; every other operation type, recognized or
not, receives the default full read/write allow-list, which grants the
`Write`, `Edit` and `Create` tools. -/
theorem c1_amended (t : List Char)
    (h1 : t ≠ "auto-tagging".toList) (h2 : t ≠ "pr-review".toList)
    (h3 : t ≠ "manual-pr-review".toList) :
    ALLOWED_TOOLS t = defaultTools ∧
    "Write".toList ∈ toolNames (ALLOWED_TOOLS t) ∧
    "Edit".toList ∈ toolNames (ALLOWED_TOOLS t) ∧
    "Create".toList ∈ toolNames (ALLOWED_TOOLS t) := by
  have h : ALLOWED_TOOLS t = defaultTools := by
    rw [ALLOWED_TOOLS, if_neg h1, if_neg (not_or.mpr ⟨h2, h3⟩)]
  refine ⟨h, ?_, ?_, ?_⟩ <;> rw [h] <;> decide

/-- Witness for `c1_amended` at the concrete unrecognized type
`"check_suite"`. -/
theorem c1_amended_witness :
    ALLOWED_TOOLS ("check_suite".toList) = defaultTools ∧
    "Write".toList ∈ toolNames (ALLOWED_TOOLS ("check_suite".toList)) ∧
    "Edit".toList ∈ toolNames (ALLOWED_TOOLS ("check_suite".toList)) ∧
    "Create".toList ∈ toolNames (ALLOWED_TOOLS ("check_suite".toList)) :=
  c1_amended ("check_suite".toList) (by decide) (by decide) (by decide)

/-- C10: the `event` field produced by `parsePayload` and the value of
`getEventType` on that payload are the same pure function of the extracted
`command` field — `slash_command:` + command when a command is (truthily)
present, the literal `unknown` otherwise. -/
theorem c10_eventType_agrees (nowMs : Nat) (isoNow : List Char)
    (body : SlackData) :
    getEventType (parsePayload nowMs isoNow body) =
      (parsePayload nowMs isoNow body).event ∧
    (parsePayload nowMs isoNow body).event =
      (if jsFalsyStr body.command then "unknown".toList
       else "slash_command:".toList ++ body.command.getD []) := by
  exact ⟨rfl, rfl⟩

/-- C3 counterexample: a request whose headers are present, whose timestamp is
current, but whose signature header is shorter than the 67-byte computed
`v0=`-prefixed digest makes `verifySignatureSync` throw
(`crypto.timingSafeEqual` raises `RangeError` on buffers of different
lengths) instead of returning an explicit `false`. -/
theorem c3_counterexample :
    verifySignatureSync digest64 1000000
      { x_slack_signature := some ("v0=bad".toList)
        x_slack_request_timestamp := some ("1000000".toList)
        rawBody := some ("payload".toList) }
      ("secret".toList) = Except.error () := by
  rfl

/-- C3 (amended): `verifySignatureSync` returns `false` when either header is
missing or empty, and when the parsed timestamp differs from the current time
by more than 300 seconds; past those guards it compares the supplied
signature against `'v0=' + hex(HMAC-SHA256(secret, 'v0:'+ts+':'+rawBody))`
and returns the comparison result — but only when the supplied signature is
exactly 67 bytes long; for any other length it throws a `RangeError` from
`crypto.timingSafeEqual` rather than returning `false`. -/
theorem c3_amended (hmacSha256Hex : List Char → List Char → List Char)
    (hdig : ∀ s m, utf8Len (hmacSha256Hex s m) = 64)
    (currentTime : Int) (req : SlackRequest) (secret : List Char) :
    ((jsFalsyStr req.x_slack_signature ||
        jsFalsyStr req.x_slack_request_timestamp) = true →
      verifySignatureSync hmacSha256Hex currentTime req secret =
        .ok false) ∧
    ((jsFalsyStr req.x_slack_signature ||
        jsFalsyStr req.x_slack_request_timestamp) = false →
      slackStale currentTime (req.x_slack_request_timestamp.getD []) = true →
      verifySignatureSync hmacSha256Hex currentTime req secret =
        .ok false) ∧
    ((jsFalsyStr req.x_slack_signature ||
        jsFalsyStr req.x_slack_request_timestamp) = false →
      slackStale currentTime (req.x_slack_request_timestamp.getD []) = false →
      utf8Len (req.x_slack_signature.getD []) ≠ 67 →
      verifySignatureSync hmacSha256Hex currentTime req secret =
        .error ()) ∧
    ((jsFalsyStr req.x_slack_signature ||
        jsFalsyStr req.x_slack_request_timestamp) = false →
      slackStale currentTime (req.x_slack_request_timestamp.getD []) = false →
      utf8Len (req.x_slack_signature.getD []) = 67 →
      verifySignatureSync hmacSha256Hex currentTime req secret =
        .ok (("v0=".toList ++ hmacSha256Hex secret
          ("v0:".toList ++ req.x_slack_request_timestamp.getD [] ++
            ":".toList ++ req.rawBody.getD [])) ==
          req.x_slack_signature.getD [])) := by
  have hlen : ∀ m, utf8Len ("v0=".toList ++ hmacSha256Hex secret m) = 67 := by
    intro m
    rw [utf8Len_append, hdig]
    decide
  refine ⟨?_, ?_, ?_, ?_⟩
  · intro h
    rw [verifySignatureSync, if_pos h]
  · intro h hs
    rw [verifySignatureSync, if_neg (by simp [h]), if_pos hs]
  · intro h hs hl
    rw [verifySignatureSync, if_neg (by simp [h]), if_neg (by simp [hs]),
      timingSafeEqual, if_neg (by rw [hlen]; exact fun he => hl he.symm)]
  · intro h hs hl
    rw [verifySignatureSync, if_neg (by simp [h]), if_neg (by simp [hs]),
      timingSafeEqual, if_pos (by rw [hlen, hl])]

/-- Witness for `c3_amended`: the missing-header branch and the
length-mismatch throwing branch, evaluated on concrete requests. -/
theorem c3_amended_witness :
    verifySignatureSync digest64 100
      { x_slack_signature := none
        x_slack_request_timestamp := some ("100".toList)
        rawBody := some ("b".toList) } ("s".toList) = .ok false ∧
    verifySignatureSync digest64 100
      { x_slack_signature := some ("v0=tooshort".toList)
        x_slack_request_timestamp := some ("100".toList)
        rawBody := some ("b".toList) } ("s".toList) = .error () :=
  ⟨(c3_amended digest64 digest64_len 100
      { x_slack_signature := none
        x_slack_request_timestamp := some ("100".toList)
        rawBody := some ("b".toList) } ("s".toList)).1 (by decide),
    (c3_amended digest64 digest64_len 100
      { x_slack_signature := some ("v0=tooshort".toList)
        x_slack_request_timestamp := some ("100".toList)
        rawBody := some ("b".toList) } ("s".toList)).2.2.1
      (by decide) (by decide) (by decide)⟩

/-- C9 counterexample: with `NODE_ENV=test` and a configured client (stored
token `ghp_abc`), `postComment` fabricates the `test-comment-id` success
response, but `createIssue` does NOT throw `GitHub client not configured` —
it proceeds with the real API call.  The claim's condition
"no token, or NODE_ENV=test" therefore does not govern `createIssue`. -/
theorem c9_counterexample :
    getOctokit (some ("ghp_abc".toList)) = some () ∧
    postComment true (getOctokit (some ("ghp_abc".toList)))
      (fun _ _ _ _ => .error ("api down".toList))
      ("NOW".toList) ("o".toList) ("r".toList) 1 ("hello".toList) =
      .ok { id := .str ("test-comment-id".toList), body := "hello".toList,
            created_at := "NOW".toList } ∧
    createIssue (getOctokit (some ("ghp_abc".toList)))
      (fun _ _ _ _ _ => .ok { number := 7, html_url := "u".toList })
      ("o".toList) ("r".toList) ("t".toList) ("b".toList) [] =
      .ok { number := 7, html_url := "u".toList } ∧
    (Except.ok ({ number := 7, html_url := "u".toList } : Issue) ≠
      (Except.error ("GitHub client not configured".toList) :
        Except (List Char) Issue)) := by
  refine ⟨rfl, rfl, rfl, fun h => Except.noConfusion h⟩

/-- C9 (amended): when no GitHub client is configured (stored token lacking
`ghp_`/`github_pat_`) and the parameters pass validation, `postComment`
silently succeeds with the fabricated `test-comment-id` response while
`createIssue` throws `GitHub client not configured`; `postComment`
additionally fabricates under `NODE_ENV=test` even with a configured client,
where `createIssue` proceeds normally (see the counterexample). -/
theorem c9_amended (storedToken : Option (List Char)) (nodeEnvTest : Bool)
    (apiCreateComment :
      List Char → List Char → Int → List Char →
        Except (List Char) OctokitCommentData)
    (apiCreateIssue :
      List Char → List Char → List Char → List Char → List (List Char) →
        Except (List Char) Issue)
    (isoNow owner name body title ibody : List Char) (issueNumber : Int)
    (labels : List (List Char))
    (hclient : getOctokit storedToken = none)
    (hvo : repoRegexTest owner = true) (hvn : repoRegexTest name = true)
    (hin : 0 < issueNumber) :
    postComment nodeEnvTest (getOctokit storedToken) apiCreateComment
      isoNow owner name issueNumber body =
      .ok { id := .str ("test-comment-id".toList), body := body,
            created_at := isoNow } ∧
    createIssue (getOctokit storedToken) apiCreateIssue
      owner name title ibody labels =
      .error ("GitHub client not configured".toList) := by
  have hv : validateGitHubParams owner name issueNumber =
      .ok (owner, name, issueNumber) := by
    rw [validateGitHubParams, if_neg (by simp [hvo, hvn]),
      if_neg (by omega)]
  have hv1 : validateGitHubParams owner name 1 = .ok (owner, name, 1) := by
    rw [validateGitHubParams, if_neg (by simp [hvo, hvn]),
      if_neg (by omega)]
  rw [hclient]
  constructor
  · rw [postComment, hv]
    simp
  · rw [createIssue, hv1]
    simp

/-- Witness for `c9_amended` at a concrete unconfigured token. -/
theorem c9_amended_witness :
    postComment false (getOctokit (some ("not-a-github-token".toList)))
      (fun _ _ _ _ => .error ("api down".toList))
      ("NOW".toList) ("o".toList) ("r".toList) 5 ("hi".toList) =
      .ok { id := .str ("test-comment-id".toList), body := "hi".toList,
            created_at := "NOW".toList } ∧
    createIssue (getOctokit (some ("not-a-github-token".toList)))
      (fun _ _ _ _ _ => .ok { number := 7, html_url := "u".toList })
      ("o".toList) ("r".toList) ("t".toList) ("b".toList) [] =
      .error ("GitHub client not configured".toList) :=
  c9_amended (some ("not-a-github-token".toList)) false
    (fun _ _ _ _ => .error ("api down".toList))
    (fun _ _ _ _ _ => .ok { number := 7, html_url := "u".toList })
    ("NOW".toList) ("o".toList) ("r".toList) ("hi".toList) ("t".toList)
    ("b".toList) 5 [] (by decide) (by decide) (by decide) (by decide)

/-- C7: under the Task Result invariant (`error` absent when `success` holds),
a successful task whose duration is below `minDurationMs` never triggers a
completion message, while `notifyTaskError` — whenever the client, the global
toggle and the error toggle are enabled — posts unconditionally, with no
duration test at all. -/
theorem c7_duration_suppression (cfg : NotifConfig) (nowMs : Int)
    (context : TaskContext) (result : TaskResult)
    (hinv : result.success = true → result.error = none) :
    (result.success = true →
      result.duration.getD (nowMs - context.startTime) < cfg.minDurationMs →
      notifyTaskComplete cfg nowMs context result = false) ∧
    (cfg.clientPresent = true → cfg.enabled = true →
      cfg.notifyOnError = true → notifyTaskError cfg = true) := by
  constructor
  · intro hs hd
    have he : result.error = none := hinv hs
    rw [notifyTaskComplete]
    split
    · rfl
    · rw [if_pos ⟨by simp [he], hd⟩]
  · intro h1 h2 h3
    rw [notifyTaskError, if_neg (by simp [h1, h2, h3])]

/-- Witness for `c7_duration_suppression`: a 100 ms success under a 5000 ms
threshold is suppressed; an error with the toggles on is posted. -/
theorem c7_duration_suppression_witness :
    notifyTaskComplete ⟨true, true, true, true, 5000⟩ 100
      { repoFullName := "o/r".toList, type := "issue_comment".toList,
        user := "u".toList, command := "c".toList, startTime := 0 }
      { success := true, duration := some 100 } = false ∧
    notifyTaskError ⟨true, true, true, true, 5000⟩ = true :=
  have h := c7_duration_suppression ⟨true, true, true, true, 5000⟩ 100
    { repoFullName := "o/r".toList, type := "issue_comment".toList,
      user := "u".toList, command := "c".toList, startTime := 0 }
    { success := true, duration := some 100 } (fun _ => rfl)
  ⟨h.1 rfl (by decide), h.2 rfl rfl rfl⟩

/-- C2: for every output stream of the form
`noise ++ [START] ++ body ++ [END] ++ trailer` (the first start sentinel
before a matching end sentinel), extraction yields exactly the lines strictly
between the sentinels with blank lines stripped, whatever tool-invocation
noise precedes the start sentinel; and a heuristic (`fromHeuristic`) result
can only arise when no start sentinel is followed by an end sentinel. -/
theorem c2_sentinel_extraction (pre mid post : List (List Char))
    (hpre : responseStartMarker ∉ pre)
    (hmid : responseEndMarker ∉ mid)
    (hbody : mid.filter (fun l => !l.isEmpty) ≠ []) :
    extractResponse
        (pre ++ responseStartMarker :: (mid ++ responseEndMarker :: post)) =
      .fromSentinels (mid.filter (fun l => !l.isEmpty)) ∧
    (∀ (lines : List (List Char)) (r : List (List Char)),
      extractResponse lines = .fromHeuristic r →
        ¬ ∃ i j, i < j ∧ lines.get? i = some responseStartMarker ∧
          lines.get? j = some responseEndMarker) := by
  constructor
  · have hp : List.findIdx? (fun l => l == responseStartMarker) pre = none :=
      List.findIdx?_eq_none_iff.mpr (fun x hx => by
        rw [beq_eq_false_iff_ne]
        exact fun he => hpre (he ▸ hx))
    have h1 : List.findIdx? (fun l => l == responseStartMarker)
        (pre ++ responseStartMarker :: (mid ++ responseEndMarker :: post)) =
          some pre.length := by
      rw [List.findIdx?_append, hp, List.findIdx?_cons]
      simp
    have h2 : (pre ++ responseStartMarker ::
        (mid ++ responseEndMarker :: post)).drop (pre.length + 1) =
          mid ++ responseEndMarker :: post := by
      have hsplit : pre ++ responseStartMarker ::
          (mid ++ responseEndMarker :: post) =
            (pre ++ [responseStartMarker]) ++
              (mid ++ responseEndMarker :: post) := by simp
      rw [hsplit,
        show pre.length + 1 = (pre ++ [responseStartMarker]).length by simp,
        List.drop_left]
    have hm : List.findIdx? (fun l => l == responseEndMarker) mid = none :=
      List.findIdx?_eq_none_iff.mpr (fun x hx => by
        rw [beq_eq_false_iff_ne]
        exact fun he => hmid (he ▸ hx))
    have h3 : List.findIdx? (fun l => l == responseEndMarker)
        (mid ++ responseEndMarker :: post) = some mid.length := by
      rw [List.findIdx?_append, hm, List.findIdx?_cons]
      simp
    rw [extractResponse, h1]
    dsimp only
    rw [h2, h3]
    dsimp only
    rw [List.take_left, if_neg (by simp only [List.isEmpty_eq_true]; exact hbody)]
  · intro lines r h
    rintro ⟨i, j, hij, hi, hj⟩
    cases hfs : List.findIdx? (fun l => l == responseStartMarker) lines with
    | none =>
      rw [List.findIdx?_eq_none_iff] at hfs
      have := hfs responseStartMarker (List.mem_iff_get?.mpr ⟨i, hi⟩)
      simp at this
    | some i₀ =>
      have hmin : i₀ ≤ 0 + i :=
        findIdx?_min _ lines 0 i₀ hfs i _ hi (by simp)
      have hmem : responseEndMarker ∈ lines.drop (i₀ + 1) := by
        rw [List.mem_iff_get?]
        refine ⟨j - (i₀ + 1), ?_⟩
        rw [List.get?_drop, show i₀ + 1 + (j - (i₀ + 1)) = j from by omega]
        exact hj
      rw [extractResponse, hfs] at h
      dsimp only at h
      cases hfe : List.findIdx? (fun l => l == responseEndMarker)
          (lines.drop (i₀ + 1)) with
      | none =>
        rw [List.findIdx?_eq_none_iff] at hfe
        have := hfe responseEndMarker hmem
        simp at this
      | some j₀ =>
        rw [hfe] at h
        dsimp only at h
        split at h
        · exact ExtractResult.noConfusion h
        · exact ExtractResult.noConfusion h

/-- Witness for `c2_sentinel_extraction`: the stream
`'Using tool foo' / START / 'answer text' / END` extracts to exactly the
single line `answer text`. -/
theorem c2_sentinel_extraction_witness :
    extractResponse (["Using tool foo".toList] ++ responseStartMarker ::
        (["answer text".toList] ++ responseEndMarker :: [])) =
      .fromSentinels ["answer text".toList] :=
  (c2_sentinel_extraction ["Using tool foo".toList] ["answer text".toList] []
    (by decide) (by decide) (by decide)).1

/-- C5: if the trimmed text matches `^([\w.-]+)\/([\w.-]+)(?:\s+(.*))?$`
then `parseRepositoryFromText` returns exactly that owner and repo, the rest
trimmed, and `isExplicit=true`; otherwise it returns the configured defaults
with `isExplicit=false` and the trimmed input as `remainingText`, a default
repo value containing `/` being split on the FIRST slash with the remainder
re-joined. -/
theorem c5_parseRepositoryFromText_spec (env : ParserEnv)
    (dOwner dRepo : Option (List Char)) (text : List Char) :
    (∀ o r g3, MatchesRepoPattern (jsTrim text) o r g3 →
      parseRepositoryFromText env dOwner dRepo text =
        { owner := o, repo := r, remainingText := jsTrim (g3.getD []),
          isExplicit := true }) ∧
    ((∀ o r g3, ¬ MatchesRepoPattern (jsTrim text) o r g3) →
      ((defaultRepoValue env dRepo).contains '/' = false →
        parseRepositoryFromText env dOwner dRepo text =
          { owner := defaultOwnerValue env dOwner
            repo := defaultRepoValue env dRepo
            remainingText := jsTrim text, isExplicit := false }) ∧
      (∀ before after,
        defaultRepoValue env dRepo = before ++ '/' :: after → '/' ∉ before →
        parseRepositoryFromText env dOwner dRepo text =
          { owner := before, repo := after
            remainingText := jsTrim text, isExplicit := false })) := by
  constructor
  · intro o r g3 hm
    rw [parseRepositoryFromText, sharedRepoMatch_complete _ o r g3 hm]
  · intro hno
    have hnone : sharedRepoMatch (jsTrim text) = none := by
      cases hsm : sharedRepoMatch (jsTrim text) with
      | none => rfl
      | some x =>
        obtain ⟨o, r, g3⟩ := x
        exact absurd (sharedRepoMatch_sound _ o r g3 hsm) (hno o r g3)
    constructor
    · intro hcont
      rw [parseRepositoryFromText, hnone]
      dsimp only
      rw [if_neg (by rw [hcont]; exact Bool.false_ne_true)]
    · intro before after hdec hnb
      have hmem : '/' ∈ before ++ '/' :: after :=
        List.mem_append_right _ (List.mem_cons_self _ _)
      have hcont : (defaultRepoValue env dRepo).contains '/' = true := by
        rw [hdec]
        simp
      have hsplit : (defaultRepoValue env dRepo).splitOn '/' =
          before :: after.splitOn '/' := by
        rw [hdec]
        exact splitOnP_first (fun x => x == '/') before '/' after
          (fun x hx => by
            simp only [beq_eq_false_iff_ne]
            exact fun he => hnb (he ▸ hx))
          (by simp)
      rw [parseRepositoryFromText, hnone]
      dsimp only
      rw [if_pos hcont, hsplit]
      simp only [List.headD_cons, List.tail_cons, List.intercalate_splitOn]

/-- Witness for `c5_parseRepositoryFromText_spec`: the spec's two examples —
`DKG-Technology-LLC/the-rail some command` parses explicitly, and the default
`owner/project/subproject` splits on its first slash for non-matching text. -/
theorem c5_parseRepositoryFromText_spec_witness :
    parseRepositoryFromText ⟨none, none⟩ none none
      ("DKG-Technology-LLC/the-rail some command".toList) =
      { owner := "DKG-Technology-LLC".toList, repo := "the-rail".toList,
        remainingText := "some command".toList, isExplicit := true } ∧
    parseRepositoryFromText ⟨none, none⟩ none
      (some ("owner/project/subproject".toList)) ("just some text".toList) =
      { owner := "owner".toList, repo := "project/subproject".toList,
        remainingText := "just some text".toList, isExplicit := false } := by
  constructor
  · have h := (c5_parseRepositoryFromText_spec ⟨none, none⟩ none none
      ("DKG-Technology-LLC/the-rail some command".toList)).1
      ("DKG-Technology-LLC".toList) ("the-rail".toList)
      (some ("some command".toList))
      ⟨by decide, by decide, by decide, by decide,
        Or.inr ⟨[' '], "some command".toList, rfl, by decide, by decide,
          by decide,
          (fun c t ht => by
            injection ht with h1 _
            rw [← h1]
            decide),
          by decide⟩⟩
    exact h
  · have hno : ∀ o r g3,
        ¬ MatchesRepoPattern (jsTrim ("just some text".toList)) o r g3 := by
      intro o r g3 hm
      obtain ⟨_, _, _, _, hcase⟩ := hm
      rcases hcase with ⟨_, hs⟩ | ⟨w, rest, _, _, _, _, _, hs⟩ <;>
        · have hsl : '/' ∈ jsTrim ("just some text".toList) := by
            rw [hs]
            simp
          exact absurd hsl (by decide)
    have h := ((c5_parseRepositoryFromText_spec ⟨none, none⟩ none
      (some ("owner/project/subproject".toList))
      ("just some text".toList)).2 hno).2
      ("owner".toList) ("project/subproject".toList) (by decide) (by decide)
    exact h

/-- C4 counterexample: the three Slack handlers do NOT share one
repository-override rule.  On `octo/repo fix the bug` BugHandler keeps the
configured defaults (it never parses an override); PlanHandler's inline regex
rejects dotted names (`user.name/repo_name.js test`) and text with no
remainder after the pair (`octo/repo`), falling back to the defaults, while
the shared rule used by TestHandler accepts the dotted form explicitly. -/
theorem c4_counterexample :
    (bugRepoChoice ⟨none, none⟩ ("octo/repo fix the bug".toList) =
      ("claude-did-this".toList, "demo-repository".toList,
        "octo/repo fix the bug".toList)) ∧
    "claude-did-this".toList ≠ "octo".toList ∧
    (planRepoChoice ⟨none, none⟩ ("user.name/repo_name.js test".toList) =
      ("claude-did-this".toList, "demo-repository".toList,
        "user.name/repo_name.js test".toList)) ∧
    (planRepoChoice ⟨none, none⟩ ("octo/repo".toList) =
      ("claude-did-this".toList, "demo-repository".toList,
        "octo/repo".toList)) ∧
    (testRepoChoice ⟨none, none⟩
        (some ("user.name/repo_name.js test".toList)) =
      { owner := "user.name".toList, repo := "repo_name.js".toList,
        remainingText := "test".toList, isExplicit := true }) := by
  decide

/-- C4 (amended): only TestHandler applies the shared
`parseRepositoryFromText` rule to its text; PlanHandler applies its own
stricter inline regex `^([\w-]+)\/([\w-]+)\s+(.*)` (no dots, mandatory
remainder) to the raw text; BugHandler performs no override parsing at all
and always uses the configured defaults. -/
theorem c4_amended (env : ParserEnv) (text : List Char)
    (textO : Option (List Char)) (o r w rest : List Char)
    (ho : o ≠ []) (hoall : o.all isPlanChar = true)
    (hr : r ≠ []) (hrall : r.all isPlanChar = true)
    (hw : w ≠ []) (hwall : w.all isJsSpace = true)
    (hresthead : ∀ c t, rest = c :: t → isJsSpace c = false) :
    bugRepoChoice env text =
      (env.DEFAULT_GITHUB_OWNER.getD ("claude-did-this".toList),
        env.DEFAULT_GITHUB_REPO.getD ("demo-repository".toList), text) ∧
    testRepoChoice env textO =
      parseRepositoryFromText env none none (textO.getD []) ∧
    planRepoChoice env (o ++ '/' :: (r ++ w ++ rest)) =
      (o, r, rest.takeWhile isDotChar) := by
  refine ⟨rfl, ?_, ?_⟩
  · simp only [testRepoChoice, parseRepositoryFromText, jsTrim_idem]
  · have hoall' : ∀ x ∈ o, isPlanChar x = true := List.all_eq_true.mp hoall
    have hrall' : ∀ x ∈ r, isPlanChar x = true := List.all_eq_true.mp hrall
    cases w with
    | nil => exact absurd rfl hw
    | cons wc wt =>
      have hwall' : ∀ x ∈ wc :: wt, isJsSpace x = true :=
        List.all_eq_true.mp hwall
      have hwc : isJsSpace wc = true := hwall' wc (List.mem_cons_self wc wt)
      have ht := takeWhile_append_not isPlanChar o '/'
        (r ++ (wc :: wt) ++ rest) hoall' (by decide)
      have hassoc : r ++ (wc :: wt) ++ rest = r ++ wc :: (wt ++ rest) := by
        simp [List.append_assoc]
      have ht2 := takeWhile_append_not isPlanChar r wc (wt ++ rest) hrall'
        (jsSpace_not_planChar wc hwc)
      have htw3 : ((wc :: wt) ++ rest).takeWhile isJsSpace = wc :: wt ∧
          ((wc :: wt) ++ rest).dropWhile isJsSpace = rest := by
        cases rest with
        | nil =>
          rw [List.append_nil]
          exact ⟨List.takeWhile_eq_self_iff.mpr hwall',
            List.dropWhile_eq_nil_iff.mpr hwall'⟩
        | cons rc rt =>
          exact takeWhile_append_not isJsSpace (wc :: wt) rc rt hwall'
            (hresthead rc rt rfl)
      have hmatch : planRegexMatch (o ++ '/' :: (r ++ (wc :: wt) ++ rest)) =
          some (o, r, rest.takeWhile isDotChar) := by
        rw [planRegexMatch, ht.1, ht.2,
          if_neg (by simp only [List.isEmpty_eq_true]; exact ho)]
        dsimp only
        rw [if_pos rfl, hassoc, ht2.1, ht2.2,
          if_neg (by simp only [List.isEmpty_eq_true]; exact hr),
          show wc :: (wt ++ rest) = (wc :: wt) ++ rest from rfl,
          htw3.1, htw3.2, if_neg (by simp)]
      rw [planRepoChoice, hmatch]

/-- Witness for `c4_amended` at concrete env and texts. -/
theorem c4_amended_witness :
    bugRepoChoice ⟨none, none⟩ ("octo/repo do it".toList) =
      ("claude-did-this".toList, "demo-repository".toList,
        "octo/repo do it".toList) ∧
    testRepoChoice ⟨none, none⟩ (some (" x ".toList)) =
      parseRepositoryFromText ⟨none, none⟩ none none
        ((some (" x ".toList)).getD []) ∧
    planRepoChoice ⟨none, none⟩
        ("octo".toList ++ '/' :: ("repo".toList ++ [' '] ++ "do it".toList)) =
      ("octo".toList, "repo".toList, ("do it".toList).takeWhile isDotChar) :=
  c4_amended ⟨none, none⟩ ("octo/repo do it".toList) (some (" x ".toList))
    ("octo".toList) ("repo".toList) [' '] ("do it".toList)
    (by decide) (by decide) (by decide) (by decide) (by decide) (by decide)
    (fun c t ht => by
      injection ht with h1 _
      rw [← h1]
      decide)

/-- C8: for every environment (arbitrary outcomes of the Slack relay, the
sandbox run and the issue creation) and every payload, the `/plan`, `/bug`
and `/test` handlers return normally — the exception channel is never used —
and any `success=false` response carries an error message, with a `❌` error
summary relayed to the Slack `response_url` when one is present (the relay's
own failure being swallowed inside `respondToSlack`). -/
theorem c8_handlers_never_throw (env : HandlerEnv) (d : SlackData) :
    ((planHandle env d).1.isOk = true ∧ (bugHandle env d).1.isOk = true ∧
      (testHandle env d).1.isOk = true) ∧
    (∀ resp, (planHandle env d).1 = Except.ok resp → resp.success = false →
      resp.error.isSome = true ∧
      ∀ u, d.response_url = some u →
        ∃ m ∈ (planHandle env d).2, m.url = u ∧
          m.text.head? = some '❌') ∧
    (∀ resp, (bugHandle env d).1 = Except.ok resp → resp.success = false →
      resp.error.isSome = true ∧
      ∀ u, d.response_url = some u →
        ∃ m ∈ (bugHandle env d).2, m.url = u ∧
          m.text.head? = some '❌') ∧
    (∀ resp, (testHandle env d).1 = Except.ok resp → resp.success = false →
      resp.error.isSome = true ∧
      ∀ u, d.response_url = some u →
        ∃ m ∈ (testHandle env d).2, m.url = u ∧
          m.text.head? = some '❌') :=
  ⟨⟨(planHandle_safe env d).1, (bugHandle_safe env d).1,
      (testHandle_safe env d).1⟩,
    (planHandle_safe env d).2, (bugHandle_safe env d).2,
    (testHandle_safe env d).2⟩

/-- Witness for `c8_handlers_never_throw`: an environment whose sandbox run
fails with `sandbox timeout` and whose Slack delivery itself fails — all
three handlers still return normally, and the plan handler's log contains a
`❌` relay to the concrete response URL. -/
theorem c8_handlers_never_throw_witness :
    ((planHandle
        { parserEnv := ⟨none, none⟩
          axiosPost := fun _ _ => Except.error ("net down".toList)
          processCommand := fun _ _ => Except.error ("sandbox timeout".toList)
          octoClient := none
          apiCreateIssue := fun _ _ _ _ _ => Except.error ("api down".toList) }
        { text := some ("do something".toList)
          response_url := some ("https://hooks.example/abc".toList) }).1.isOk
      = true ∧
     (bugHandle
        { parserEnv := ⟨none, none⟩
          axiosPost := fun _ _ => Except.error ("net down".toList)
          processCommand := fun _ _ => Except.error ("sandbox timeout".toList)
          octoClient := none
          apiCreateIssue := fun _ _ _ _ _ => Except.error ("api down".toList) }
        { text := some ("do something".toList)
          response_url := some ("https://hooks.example/abc".toList) }).1.isOk
      = true ∧
     (testHandle
        { parserEnv := ⟨none, none⟩
          axiosPost := fun _ _ => Except.error ("net down".toList)
          processCommand := fun _ _ => Except.error ("sandbox timeout".toList)
          octoClient := none
          apiCreateIssue := fun _ _ _ _ _ => Except.error ("api down".toList) }
        { text := some ("do something".toList)
          response_url := some ("https://hooks.example/abc".toList) }).1.isOk
      = true) ∧
    (∃ m ∈ (planHandle
        { parserEnv := ⟨none, none⟩
          axiosPost := fun _ _ => Except.error ("net down".toList)
          processCommand := fun _ _ => Except.error ("sandbox timeout".toList)
          octoClient := none
          apiCreateIssue := fun _ _ _ _ _ => Except.error ("api down".toList) }
        { text := some ("do something".toList)
          response_url := some ("https://hooks.example/abc".toList) }).2,
      m.url = "https://hooks.example/abc".toList ∧
        m.text.head? = some '❌') :=
  ⟨(c8_handlers_never_throw
      { parserEnv := ⟨none, none⟩
        axiosPost := fun _ _ => Except.error ("net down".toList)
        processCommand := fun _ _ => Except.error ("sandbox timeout".toList)
        octoClient := none
        apiCreateIssue := fun _ _ _ _ _ => Except.error ("api down".toList) }
      { text := some ("do something".toList)
        response_url := some ("https://hooks.example/abc".toList) }).1,
    ((c8_handlers_never_throw
      { parserEnv := ⟨none, none⟩
        axiosPost := fun _ _ => Except.error ("net down".toList)
        processCommand := fun _ _ => Except.error ("sandbox timeout".toList)
        octoClient := none
        apiCreateIssue := fun _ _ _ _ _ => Except.error ("api down".toList) }
      { text := some ("do something".toList)
        response_url := some ("https://hooks.example/abc".toList) }).2.1
      { success := false, message := none,
        error := some ("sandbox timeout".toList) } rfl rfl).2
      ("https://hooks.example/abc".toList) rfl⟩

end ClaudeHub

